import Mathlib

/-!
# Comfy Canvas — verification of the layer/selection/undo engine

A shallow embedding of the engineering core of the Comfy Canvas editor:

* the paint-bucket flood fill (`performFloodFill` in the editor module),
* the pure selection coordinate transforms (`transformPoint` /
  `inverseTransformPoint`),
* the layers manager (`createLayersManager`: `addLayer`, `removeLayer`,
  `clearAllLayers`, `setActiveLayer`, `resize`),
* the undo/redo manager (`UndoRedoManager.captureSnapshot` /
  `restoreSnapshot` / `undo` / `redo`),
* the selection/extraction state machine of the editor
  (`clearSelection`, `extractSelectionContent`, marquee/lasso start,
  `setTool`, `setSelection`, `finalizeLasso`).

Pixel surfaces are modelled as flat `List Pixel` buffers indexed by
`y * width + x`, matching the `ImageData` byte layout the source reads and
writes.  Effects performed by the external PIXI renderer (blitting a
sprite, erase-blend rectangles, …) are modelled either pixelwise (where
the source fully determines the result, e.g. compositing over a
transparent or opaque-white base) or as explicit render-operation records
appended to the active layer (where the pixel result is produced by the
external renderer).
-/

/-- One RGBA pixel, as the four byte channels of an `ImageData` entry. -/
structure Pixel where
  r : Nat
  g : Nat
  b : Nat
  a : Nat
deriving DecidableEq, Repr

/-- A pixel buffer in row-major order (`data[(y * width + x) * 4]` in the
source becomes index `y * width + x` here). -/
abbrev Surface := List Pixel

/-- The fully transparent pixel (`rgba(0,0,0,0)`), the clear value of a
freshly created or erased region. -/
def transparentPx : Pixel := ⟨0, 0, 0, 0⟩

/-! ## Paint bucket: `performFloodFill` (editor module)

The source extracts the active layer's pixels into an `ImageData`,
computes the clamped integer click position, reads the target RGB there,
compares it with the RGB of the current color (`(color >> 16) & 255`
etc.), returns unchanged if they agree, and otherwise runs an explicit
stack-based 4-connected fill, writing the fill RGB with alpha 255 into
every connected pixel whose RGB matches the target. -/

/-- Red channel of a packed 24-bit color, `(color >> 16) & 255`. -/
def fillR (c : Nat) : Nat := (c >>> 16) &&& 255

/-- Green channel of a packed 24-bit color, `(color >> 8) & 255`. -/
def fillG (c : Nat) : Nat := (c >>> 8) &&& 255

/-- Blue channel of a packed 24-bit color, `color & 255`. -/
def fillB (c : Nat) : Nat := c &&& 255

/-- The RGB-only comparison the fill uses: `data[i] === targetR`,
`data[i+1] === targetG`, `data[i+2] === targetB`; the alpha byte is never
consulted. -/
def pxMatchRGB (p : Pixel) (tr tg tb : Nat) : Bool :=
  p.r == tr && p.g == tg && p.b == tb

/-- Bounds test of the fill loop: `x < 0 || y < 0 || x >= width || y >= height`
discards the popped pixel (this is the negation of that test). -/
def fillInBounds (w h : Nat) (x y : Int) : Bool :=
  0 ≤ x && 0 ≤ y && x < (w : Int) && y < (h : Int)

/-- Number of pixels of the buffer whose RGB matches the target color;
the termination measure of the fill loop. -/
def countMatching (tr tg tb : Nat) (data : Surface) : Nat :=
  data.countP (fun p => pxMatchRGB p tr tg tb)

theorem fillIdx_lt {w h : Nat} {x y : Int} (hb : fillInBounds w h x y = true) :
    y.toNat * w + x.toNat < w * h := by
  simp only [fillInBounds, Bool.and_eq_true, decide_eq_true_eq] at hb
  obtain ⟨⟨⟨hx0, hy0⟩, hxw⟩, hyh⟩ := hb
  have hx : x.toNat < w := by omega
  have hy : y.toNat < h := by omega
  calc y.toNat * w + x.toNat < y.toNat * w + w := by omega
    _ = (y.toNat + 1) * w := by ring
    _ ≤ h * w := Nat.mul_le_mul_right w hy
    _ = w * h := Nat.mul_comm h w

theorem countMatching_set_lt {tr tg tb : Nat} {data : Surface} {i : Nat} {v : Pixel}
    (hi : i < data.length)
    (hold : pxMatchRGB data[i] tr tg tb = true)
    (hnew : pxMatchRGB v tr tg tb = false) :
    countMatching tr tg tb (data.set i v) < countMatching tr tg tb data := by
  unfold countMatching
  rw [List.countP_set _ _ _ _ hi, hold, hnew]
  have hpos : 0 < data.countP (fun p => pxMatchRGB p tr tg tb) := by
    rw [List.countP_pos_iff]
    exact ⟨data[i], List.getElem_mem hi, hold⟩
  simp only [if_pos rfl, if_neg (by simp : ¬ false = true), if_true]
  omega

/-- The non-recursive fill loop (`const stack = [[startX, startY]]; while
(stack.length > 0) { ... }`): pop a coordinate; discard it if out of
bounds or if its RGB no longer matches the target; otherwise write the
fill RGB with alpha 255 and push the four 4-connected neighbours.
`hne` records the no-op guard that already ruled out `target === fill`
(without it the loop would not terminate), and `hlen` records that the
buffer is the `width*height` `ImageData` of the layer.  The list models
the JavaScript array used as a stack with its head at the array's end, so
`pop()` is head-removal and `push(a, b, c, d)` prepends `d, c, b, a`. -/
def floodLoop (w h tr tg tb fr fg fb : Nat)
    (hne : pxMatchRGB ⟨fr, fg, fb, 255⟩ tr tg tb = false)
    (data : Surface) (hlen : data.length = w * h) :
    List (Int × Int) → Surface
  | [] => data
  | (x, y) :: rest =>
    if hb : fillInBounds w h x y = true then
      if hm : pxMatchRGB (data.getD (y.toNat * w + x.toNat) transparentPx) tr tg tb = true then
        floodLoop w h tr tg tb fr fg fb hne
          (data.set (y.toNat * w + x.toNat) ⟨fr, fg, fb, 255⟩)
          (by rw [List.length_set]; exact hlen)
          ((x, y - 1) :: (x, y + 1) :: (x - 1, y) :: (x + 1, y) :: rest)
      else
        floodLoop w h tr tg tb fr fg fb hne data hlen rest
    else
      floodLoop w h tr tg tb fr fg fb hne data hlen rest
termination_by stack => (countMatching tr tg tb data, stack.length)
decreasing_by
  · apply Prod.Lex.left
    have hi : y.toNat * w + x.toNat < data.length := by
      rw [hlen]; exact fillIdx_lt hb
    apply countMatching_set_lt hi _ hne
    rwa [List.getD_eq_getElem?_getD, List.getElem?_eq_getElem hi, Option.getD_some] at hm
  · apply Prod.Lex.right
    simp
  · apply Prod.Lex.right
    simp

/-- Binary `Math.min` on numbers. -/
def qmin (a b : ℚ) : ℚ := if a ≤ b then a else b

/-- Binary `Math.max` on numbers. -/
def qmax (a b : ℚ) : ℚ := if a ≤ b then b else a

/-- The clamped integer start coordinate,
`Math.floor(Math.max(0, Math.min(bound - 1, coordinate)))`. -/
def clampedStart (bound : Nat) (q : ℚ) : Int :=
  Rat.floor (qmax 0 (qmin ((bound : ℚ) - 1) q))

/-- The flat index of the clicked pixel,
`(startY * canvas.width + startX)` (the source multiplies by 4 for the
per-channel byte offset; pixels are whole records here). -/
def clickedIndex (w h : Nat) (px py : ℚ) : Nat :=
  (clampedStart h py).toNat * w + (clampedStart w px).toNat

theorem pxMatchRGB_fill_false {p : Pixel} {fr fg fb : Nat}
    (hg : ¬ pxMatchRGB p fr fg fb = true) :
    pxMatchRGB ⟨fr, fg, fb, 255⟩ p.r p.g p.b = false := by
  rw [Bool.eq_false_iff]
  intro hc
  apply hg
  simp only [pxMatchRGB, Bool.and_eq_true, beq_iff_eq] at hc ⊢
  obtain ⟨⟨h1, h2⟩, h3⟩ := hc
  exact ⟨⟨h1.symm, h2.symm⟩, h3.symm⟩

/-- Model of `performFloodFill` after its locked-layer and missing-texture guards:
read the clicked pixel's RGB as the target color, return the buffer
unchanged when the target already equals the fill color, and otherwise run
the stack-based fill from the clicked pixel. -/
def floodFill (w h : Nat) (data : Surface) (hlen : data.length = w * h)
    (px py : ℚ) (color : Nat) : Surface :=
  if hg : pxMatchRGB (data.getD (clickedIndex w h px py) transparentPx)
      (fillR color) (fillG color) (fillB color) = true then
    data
  else
    floodLoop w h (data.getD (clickedIndex w h px py) transparentPx).r
      (data.getD (clickedIndex w h px py) transparentPx).g
      (data.getD (clickedIndex w h px py) transparentPx).b
      (fillR color) (fillG color) (fillB color)
      (pxMatchRGB_fill_false hg) data hlen
      [(clampedStart w px, clampedStart h py)]

/-- Claim C6: flood fill is idempotent: for every surface and click point, if
the clicked pixel's color already equals the fill color (so the connected
region is already entirely the target color), the flood-fill operation
leaves every pixel of the surface unchanged. -/
theorem floodFill_idempotent_on_filled_region (w h : Nat) (data : Surface)
    (hlen : data.length = w * h) (px py : ℚ) (color : Nat)
    (hmatch : pxMatchRGB (data.getD (clickedIndex w h px py) transparentPx)
      (fillR color) (fillG color) (fillB color) = true) :
    floodFill w h data hlen px py color = data := by
  unfold floodFill
  rw [dif_pos hmatch]

theorem floodFill_idempotent_witness :
    pxMatchRGB (([⟨10, 20, 30, 255⟩, transparentPx, transparentPx, transparentPx] :
        Surface).getD (clickedIndex 2 2 0 0) transparentPx)
      (fillR 0x0A141E) (fillG 0x0A141E) (fillB 0x0A141E) = true
    ∧ floodFill 2 2 [⟨10, 20, 30, 255⟩, transparentPx, transparentPx, transparentPx]
        (by decide) 0 0 0x0A141E
      = [⟨10, 20, 30, 255⟩, transparentPx, transparentPx, transparentPx] :=
  ⟨by simp [clickedIndex, clampedStart, qmin, qmax, Rat.floor_def', pxMatchRGB,
      fillR, fillG, fillB]; decide,
   floodFill_idempotent_on_filled_region 2 2 _ (by decide) 0 0 0x0A141E
     (by simp [clickedIndex, clampedStart, qmin, qmax, Rat.floor_def', pxMatchRGB,
        fillR, fillG, fillB]; decide)⟩

/-- Claim C10: the flood-fill match and no-op tests compare only the R, G, B
channels and ignore alpha: for every surface whose clicked pixel carries
the fill color's RGB with any alpha value (for example a fully transparent
pixel, which reads back as RGB (0,0,0), clicked with fill color black),
the operation returns without modifying any pixel, so such pixels are
never made opaque. -/
theorem floodFill_match_ignores_alpha (w h : Nat) (data : Surface)
    (hlen : data.length = w * h) (px py : ℚ) (color a : Nat)
    (hclick : data.getD (clickedIndex w h px py) transparentPx
      = ⟨fillR color, fillG color, fillB color, a⟩) :
    floodFill w h data hlen px py color = data ∧
    (floodFill w h data hlen px py color).getD (clickedIndex w h px py) transparentPx
      = ⟨fillR color, fillG color, fillB color, a⟩ := by
  have hmatch : pxMatchRGB (data.getD (clickedIndex w h px py) transparentPx)
      (fillR color) (fillG color) (fillB color) = true := by
    rw [hclick]; simp [pxMatchRGB]
  have h1 : floodFill w h data hlen px py color = data := by
    unfold floodFill; rw [dif_pos hmatch]
  exact ⟨h1, by rw [h1, hclick]⟩

theorem floodFill_ignores_alpha_witness :
    ([transparentPx] : Surface).getD (clickedIndex 1 1 0 0) transparentPx
      = ⟨fillR 0, fillG 0, fillB 0, 0⟩
    ∧ (floodFill 1 1 [transparentPx] (by decide) 0 0 0 = [transparentPx]
       ∧ (floodFill 1 1 [transparentPx] (by decide) 0 0 0).getD (clickedIndex 1 1 0 0)
           transparentPx = ⟨fillR 0, fillG 0, fillB 0, 0⟩) :=
  ⟨by simp [clickedIndex, clampedStart, qmin, qmax, Rat.floor_def', transparentPx,
      fillR, fillG, fillB],
   floodFill_match_ignores_alpha 1 1 [transparentPx] (by decide) 0 0 0 0
     (by simp [clickedIndex, clampedStart, qmin, qmax, Rat.floor_def', transparentPx,
        fillR, fillG, fillB])⟩

/-- Claim C7: flood fill operates iteratively with an explicit stack (no
unbounded recursion) performing a 4-connected fill, and the loop
terminates on every finite surface: one unfolding step either discards a
non-matching or out-of-bounds pixel (shrinking the stack) or recolors a
matching pixel to the fill color with alpha forced to 255, pushing the
four neighbours; recoloring strictly decreases the number of pixels
matching the target color, because the recolored pixel can never match
the target again (target and fill colors differ). The totality of
`floodLoop` — accepted by the kernel via this lexicographic measure — is
the termination of the loop. -/
theorem floodLoop_explicit_stack_terminates (w h tr tg tb fr fg fb : Nat)
    (hne : pxMatchRGB ⟨fr, fg, fb, 255⟩ tr tg tb = false)
    (data : Surface) (hlen : data.length = w * h) (x y : Int)
    (rest : List (Int × Int)) :
    floodLoop w h tr tg tb fr fg fb hne data hlen ((x, y) :: rest)
      = (if fillInBounds w h x y = true then
           if pxMatchRGB (data.getD (y.toNat * w + x.toNat) transparentPx) tr tg tb = true then
             floodLoop w h tr tg tb fr fg fb hne
               (data.set (y.toNat * w + x.toNat) ⟨fr, fg, fb, 255⟩)
               (by rw [List.length_set]; exact hlen)
               ((x, y - 1) :: (x, y + 1) :: (x - 1, y) :: (x + 1, y) :: rest)
           else floodLoop w h tr tg tb fr fg fb hne data hlen rest
         else floodLoop w h tr tg tb fr fg fb hne data hlen rest)
    ∧ (fillInBounds w h x y = true →
       pxMatchRGB (data.getD (y.toNat * w + x.toNat) transparentPx) tr tg tb = true →
       countMatching tr tg tb (data.set (y.toNat * w + x.toNat) ⟨fr, fg, fb, 255⟩)
         < countMatching tr tg tb data
       ∧ pxMatchRGB ((data.set (y.toNat * w + x.toNat) ⟨fr, fg, fb, 255⟩).getD
           (y.toNat * w + x.toNat) transparentPx) tr tg tb = false) := by
  constructor
  · by_cases hb : fillInBounds w h x y = true
    · by_cases hm : pxMatchRGB (data.getD (y.toNat * w + x.toNat) transparentPx) tr tg tb = true
      · rw [floodLoop, dif_pos hb, dif_pos hm, if_pos hb, if_pos hm]
      · rw [floodLoop, dif_pos hb, dif_neg hm, if_pos hb, if_neg hm]
    · rw [floodLoop, dif_neg hb, if_neg hb]
  · intro hb hm
    have hi : y.toNat * w + x.toNat < data.length := by rw [hlen]; exact fillIdx_lt hb
    have hm' : pxMatchRGB data[y.toNat * w + x.toNat] tr tg tb = true := by
      rwa [List.getD_eq_getElem?_getD, List.getElem?_eq_getElem hi, Option.getD_some] at hm
    refine ⟨countMatching_set_lt hi hm' hne, ?_⟩
    have hi' : y.toNat * w + x.toNat < (data.set (y.toNat * w + x.toNat) ⟨fr, fg, fb, 255⟩).length := by
      rw [List.length_set]; exact hi
    rw [List.getD_eq_getElem?_getD, List.getElem?_eq_getElem hi', Option.getD_some,
      List.getElem_set_self]
    exact hne

theorem floodLoop_terminates_witness :
    countMatching 0 0 0 (([transparentPx] : Surface).set 0 ⟨255, 0, 0, 255⟩)
      < countMatching 0 0 0 [transparentPx] :=
  ((floodLoop_explicit_stack_terminates 1 1 0 0 0 255 0 0 (by decide) [transparentPx]
      (by decide) 0 0 []).2 (by decide) (by decide)).1

/-! ## Transform Math: `transformPoint` / `inverseTransformPoint`

Pure coordinate functions from the editor's transformation utilities: the
forward rotation of a point about the transformation matrix's center
(`transformPoint`) and the inverse (`inverseTransformPoint`, which
rotates by the negated angle, `cos(-rotation)` / `sin(-rotation)` in the
source).  They are modelled over the real numbers — the exact-arithmetic
idealization of the source's doubles that claim C8 quantifies over.  The
center and rotation are the fields the source reads from
`transformationMatrix`; both functions are plain functions of their
arguments, touching no surface or other state. -/

noncomputable def transformPoint (cx cy rotation px py : ℝ) : ℝ × ℝ :=
  (cx + ((px - cx) * Real.cos rotation - (py - cy) * Real.sin rotation),
   cy + ((px - cx) * Real.sin rotation + (py - cy) * Real.cos rotation))

noncomputable def inverseTransformPoint (cx cy rotation tx ty : ℝ) : ℝ × ℝ :=
  (cx + ((tx - cx) * Real.cos (-rotation) - (ty - cy) * Real.sin (-rotation)),
   cy + ((tx - cx) * Real.sin (-rotation) + (ty - cy) * Real.cos (-rotation)))

/-- Claim C8: the coordinate transforms are mutually inverse rotations and
pure: for every point, center and rotation angle, forward-rotating a
point about the center and then inverse-rotating the result by the same
rotation returns the original point in exact real arithmetic (and
conversely); both functions are deterministic Lean functions of their
coordinate arguments alone. -/
theorem transformPoint_inverse_roundtrip (cx cy rotation px py : ℝ) :
    inverseTransformPoint cx cy rotation
        (transformPoint cx cy rotation px py).1
        (transformPoint cx cy rotation px py).2 = (px, py)
    ∧ transformPoint cx cy rotation
        (inverseTransformPoint cx cy rotation px py).1
        (inverseTransformPoint cx cy rotation px py).2 = (px, py) := by
  have h := Real.sin_sq_add_cos_sq rotation
  unfold transformPoint inverseTransformPoint
  simp only [Real.cos_neg, Real.sin_neg, Prod.mk.injEq]
  refine ⟨⟨?_, ?_⟩, ?_, ?_⟩
  · linear_combination (px - cx) * h
  · linear_combination (py - cy) * h
  · linear_combination (px - cx) * h
  · linear_combination (py - cy) * h

/-! ## Layers manager: `createLayersManager` (layers module)

A layer record carries the fields of the source's layer object (the
`renderTexture`/`sprite` pair collapses to the pixel surface; the sprite's
`alpha`/`visible`/`blendMode` mirror the record fields and are not
duplicated).  The manager state carries the ordered stack, the active
index (`-1` when the stack is empty), the id counter and the current
canvas dimensions (the module-level `width`/`height` closure variables). -/

structure Layer where
  id : Nat
  name : String
  opacity : ℚ
  blendMode : String
  visible : Bool
  locked : Bool
  surface : Surface
deriving DecidableEq, Repr

structure LayersState where
  layers : List Layer
  activeLayerIndex : Int
  nextLayerId : Nat
  width : Nat
  height : Nat
deriving DecidableEq, Repr

/-- Model of `createLayer` plus `addLayer`: allocate a surface filled with the
requested opaque color (used for the white background layer) or
transparent, append the layer at the top of the stack, make it active,
and bump the id counter. -/
def addLayer (st : LayersState) (name : String) (opacity : ℚ) (visible : Bool)
    (blendMode : String) (fillColor : Option Nat) : LayersState :=
  let initPx : Pixel :=
    match fillColor with
    | some c => ⟨fillR c, fillG c, fillB c, 255⟩
    | none => transparentPx
  let layer : Layer :=
    { id := st.nextLayerId, name := name, opacity := opacity, blendMode := blendMode,
      visible := visible, locked := false,
      surface := List.replicate (st.width * st.height) initPx }
  { st with layers := st.layers ++ [layer],
            activeLayerIndex := (st.layers.length : Int),
            nextLayerId := st.nextLayerId + 1 }

/-- Model of `clearAllLayers`: dispose every surface, reset the stack to empty and
the active index to `-1`. -/
def clearAllLayers (st : LayersState) : LayersState :=
  { st with layers := [], activeLayerIndex := -1 }

/-- Model of `setActiveLayer`: reject out-of-range indices, otherwise set the
active index. -/
def setActiveLayer (st : LayersState) (i : Int) : Bool × LayersState :=
  if 0 ≤ i ∧ i < (st.layers.length : Int) then
    (true, { st with activeLayerIndex := i })
  else
    (false, st)

/-- Model of `removeLayer(index, allowLastLayer)`: reject an invalid index; in
normal editing (`allowLastLayer = false`) reject removing the last
remaining layer; otherwise dispose the layer, splice it out, and adjust
the active index (`max(0, activeLayerIndex - 1)` whenever the active
index was at or above the removed one; `-1` when the stack becomes
empty). -/
def removeLayer (st : LayersState) (index : Int) (allowLastLayer : Bool) :
    Bool × LayersState :=
  if index < 0 ∨ (st.layers.length : Int) ≤ index then
    (false, st)
  else if ¬allowLastLayer ∧ st.layers.length ≤ 1 then
    (false, st)
  else
    let layers' := st.layers.eraseIdx index.toNat
    if 0 < layers'.length then
      let act' := if index ≤ st.activeLayerIndex
                  then max 0 (st.activeLayerIndex - 1)
                  else st.activeLayerIndex
      (true, { st with layers := layers', activeLayerIndex := act' })
    else
      (true, { st with layers := layers', activeLayerIndex := -1 })

theorem getD_eraseIdx_of_lt {α : Type} (l : List α) (i j : Nat) (hj : j < i)
    (hi : j < l.length - 1) (d : α) : (l.eraseIdx i).getD j d = l.getD j d := by
  have hlen : j < (l.eraseIdx i).length := by
    rw [List.length_eraseIdx]
    split <;> omega
  have hl : j < l.length := by omega
  rw [List.getD_eq_getElem?_getD, List.getD_eq_getElem?_getD,
    List.getElem?_eq_getElem hlen, List.getElem?_eq_getElem hl,
    List.getElem_eraseIdx_of_lt l i j hlen hj]

theorem getD_eraseIdx_of_ge {α : Type} (l : List α) (i j : Nat) (hj : i ≤ j)
    (hi : i < l.length) (hjl : j < l.length - 1) (d : α) :
    (l.eraseIdx i).getD j d = l.getD (j + 1) d := by
  have hlen : j < (l.eraseIdx i).length := by
    rw [List.length_eraseIdx]
    split <;> omega
  have hl : j + 1 < l.length := by omega
  rw [List.getD_eq_getElem?_getD, List.getD_eq_getElem?_getD,
    List.getElem?_eq_getElem hlen, List.getElem?_eq_getElem hl,
    List.getElem_eraseIdx_of_ge l i j hlen hj]

/-- Placeholder layer used only as the default of `List.getD` lookups in
statements (never looked up at an out-of-range index in a proved
conclusion). -/
def defaultLayer : Layer :=
  { id := 0, name := "", opacity := 1, blendMode := "normal",
    visible := true, locked := false, surface := [] }

def exLayerA : Layer :=
  { id := 1, name := "A", opacity := 1, blendMode := "normal",
    visible := true, locked := false, surface := [transparentPx] }

def exLayerB : Layer :=
  { id := 2, name := "B", opacity := 1, blendMode := "normal",
    visible := true, locked := false, surface := [transparentPx] }

def exLayerC : Layer :=
  { id := 3, name := "C", opacity := 1, blendMode := "normal",
    visible := true, locked := false, surface := [transparentPx] }

def exStack3 : LayersState :=
  { layers := [exLayerA, exLayerB, exLayerC], activeLayerIndex := 0,
    nextLayerId := 4, width := 1, height := 1 }

/-- Claim C9 counterexample: on the 3-layer stack [A, B, C] with layer A (index
0) active, removing layer C (index 2) in normal editing succeeds, yet the
active index stays 0 and still denotes layer A — which is not a
neighboring layer of the removed one (C's only neighbor is B).  So "on
every successful removal the active index is reassigned to a neighboring
layer" fails as stated. -/
theorem removeLayer_neighbor_counterexample :
    (removeLayer exStack3 2 false).1 = true
    ∧ (removeLayer exStack3 2 false).2.activeLayerIndex = 0
    ∧ (removeLayer exStack3 2 false).2.layers.getD 0 defaultLayer = exLayerA
    ∧ exLayerA ≠ exLayerB := by decide

/-- Claim C9 (amended): `removeLayer(index)` returns false and leaves the layer
stack, active index and every surface unchanged whenever the index is out
of range, or — in normal editing — the indexed layer is the last
remaining layer; when the restoration-time allowance flag is set,
removing the last remaining layer is permitted and succeeds, leaving an
empty stack (active index -1).  On every successful removal the stack is
the original with the indexed layer spliced out, the active index remains
valid, and: when the removed layer was the active one the active index is
reassigned to one of its former neighbors; when some other layer was
removed the active index continues to denote the same layer as before
(which need not be a neighbor of the removed layer). -/
theorem removeLayer_spec (st : LayersState) (index : Int) (allow : Bool) :
    ((index < 0 ∨ (st.layers.length : Int) ≤ index) →
        removeLayer st index allow = (false, st))
    ∧ (0 ≤ index → index < (st.layers.length : Int) →
        st.layers.length = 1 → removeLayer st index false = (false, st))
    ∧ (st.layers.length = 1 → index = 0 →
        removeLayer st index true
          = (true, { st with layers := [], activeLayerIndex := -1 }))
    ∧ (0 ≤ index → index < (st.layers.length : Int) → 2 ≤ st.layers.length →
        (removeLayer st index allow).1 = true
        ∧ (removeLayer st index allow).2.layers = st.layers.eraseIdx index.toNat
        ∧ (removeLayer st index allow).2.activeLayerIndex
            = (if index ≤ st.activeLayerIndex then max 0 (st.activeLayerIndex - 1)
               else st.activeLayerIndex)
        ∧ (0 ≤ st.activeLayerIndex → st.activeLayerIndex < (st.layers.length : Int) →
           0 ≤ (removeLayer st index allow).2.activeLayerIndex
           ∧ (removeLayer st index allow).2.activeLayerIndex
               < ((removeLayer st index allow).2.layers.length : Int))
        ∧ (st.activeLayerIndex = index →
            (removeLayer st index allow).2.layers.getD
                (removeLayer st index allow).2.activeLayerIndex.toNat defaultLayer
              = st.layers.getD (index.toNat - 1) defaultLayer
            ∨ (removeLayer st index allow).2.layers.getD
                (removeLayer st index allow).2.activeLayerIndex.toNat defaultLayer
              = st.layers.getD (index.toNat + 1) defaultLayer)
        ∧ (st.activeLayerIndex ≠ index → 0 ≤ st.activeLayerIndex →
            st.activeLayerIndex < (st.layers.length : Int) →
            (removeLayer st index allow).2.layers.getD
                (removeLayer st index allow).2.activeLayerIndex.toNat defaultLayer
              = st.layers.getD st.activeLayerIndex.toNat defaultLayer)) := by
  refine ⟨?_, ?_, ?_, ?_⟩
  · intro hbad
    unfold removeLayer
    rw [if_pos hbad]
  · intro h0 hlt hone
    unfold removeLayer
    rw [if_neg (by omega), if_pos ⟨by simp, by omega⟩]
  · intro hone hidx
    subst hidx
    unfold removeLayer
    rw [if_neg (by omega), if_neg (by simp)]
    have herase : st.layers.eraseIdx (0 : Int).toNat = [] := by
      cases hl : st.layers with
      | nil => rw [hl] at hone; simp at hone
      | cons a l =>
        rw [hl] at hone
        simp at hone
        simp [List.eraseIdx, hone]
    rw [herase]
    simp
  · intro h0 hlt h2
    have hvalid : ¬(index < 0 ∨ (st.layers.length : Int) ≤ index) := by omega
    have hguard : ¬(¬allow ∧ st.layers.length ≤ 1) := by
      rintro ⟨-, hle⟩; omega
    have hlen' : (st.layers.eraseIdx index.toNat).length = st.layers.length - 1 := by
      rw [List.length_eraseIdx, if_pos (by omega)]
    have hpos : 0 < (st.layers.eraseIdx index.toNat).length := by omega
    have hres : removeLayer st index allow
        = (true, { st with
                   layers := st.layers.eraseIdx index.toNat,
                   activeLayerIndex :=
                     (if index ≤ st.activeLayerIndex
                      then max 0 (st.activeLayerIndex - 1)
                      else st.activeLayerIndex) }) := by
      unfold removeLayer
      rw [if_neg hvalid, if_neg hguard, if_pos hpos]
    rw [hres]
    refine ⟨rfl, rfl, rfl, ?_, ?_, ?_⟩
    · intro hact0 hactlt
      simp only
      constructor
      · split <;> omega
      · rw [hlen']
        split <;> omega
    · intro hact
      simp only
      rw [if_pos (by omega)]
      by_cases hz : index = 0
      · right
        have hmax0 : (max 0 (st.activeLayerIndex - 1)).toNat = 0 := by omega
        rw [hmax0]
        have hz0 : index.toNat = 0 := by omega
        rw [hz0]
        rw [getD_eraseIdx_of_ge st.layers _ _ (by omega) (by omega) (by omega)]
      · left
        have hmax : (max 0 (st.activeLayerIndex - 1)).toNat = index.toNat - 1 := by
          omega
        rw [hmax]
        rw [getD_eraseIdx_of_lt st.layers _ _ (by omega) (by omega)]
    · intro hne hact0 hactlt
      simp only
      by_cases hcase : index ≤ st.activeLayerIndex
      · rw [if_pos hcase]
        have hmax : (max 0 (st.activeLayerIndex - 1)).toNat = st.activeLayerIndex.toNat - 1 := by
          omega
        rw [hmax]
        rw [getD_eraseIdx_of_ge st.layers _ _ (by omega) (by omega) (by omega)]
        congr 1
        omega
      · rw [if_neg hcase]
        rw [getD_eraseIdx_of_lt st.layers _ _ (by omega) (by omega)]

theorem removeLayer_spec_witness :
    removeLayer exStack3 5 false = (false, exStack3)
    ∧ (removeLayer exStack3 1 false).1 = true :=
  ⟨(removeLayer_spec exStack3 5 false).1 (by decide),
   ((removeLayer_spec exStack3 1 false).2.2.2 (by decide) (by decide) (by decide)).1⟩

/-! ## `resize(newWidth, newHeight)` (layers module)

For every layer: create a fresh `newWidth x newHeight` texture, clear it
to transparent, and — when the old texture is non-degenerate — blit the
old content at the integer offset `(floor((newW - width) / 2),
floor((newH - height) / 2))` (JavaScript `Math.floor` on a possibly
negative value is Lean's `Int.fdiv`).  Rendering the old sprite over the
transparent clear leaves each covered pixel equal to the old pixel and
every uncovered pixel transparent; content blitted outside the new bounds
is clipped.  Metadata and stack order are untouched; the manager's
dimensions are updated afterwards. -/

def resizeSurface (oldW oldH newW newH : Nat) (data : Surface) : Surface :=
  let dx : Int := Int.fdiv ((newW : Int) - (oldW : Int)) 2
  let dy : Int := Int.fdiv ((newH : Int) - (oldH : Int)) 2
  (List.range (newW * newH)).map (fun i =>
    let x : Int := ((i % newW : Nat) : Int)
    let y : Int := ((i / newW : Nat) : Int)
    let sx : Int := x - dx
    let sy : Int := y - dy
    if 0 < oldW ∧ 0 < oldH ∧ 0 ≤ sx ∧ sx < (oldW : Int) ∧ 0 ≤ sy ∧ sy < (oldH : Int) then
      data.getD (sy.toNat * oldW + sx.toNat) transparentPx
    else transparentPx)

def resizeLayers (st : LayersState) (newW newH : Nat) : LayersState :=
  { st with
    layers := st.layers.map (fun l =>
      { l with surface := resizeSurface st.width st.height newW newH l.surface }),
    width := newW,
    height := newH }

theorem resizeSurface_getD (oldW oldH newW newH : Nat) (data : Surface)
    (x y : Nat) (hx : x < newW) (hy : y < newH) :
    (resizeSurface oldW oldH newW newH data).getD (y * newW + x) transparentPx
      = (if 0 < oldW ∧ 0 < oldH
            ∧ 0 ≤ (x : Int) - Int.fdiv ((newW : Int) - (oldW : Int)) 2
            ∧ (x : Int) - Int.fdiv ((newW : Int) - (oldW : Int)) 2 < (oldW : Int)
            ∧ 0 ≤ (y : Int) - Int.fdiv ((newH : Int) - (oldH : Int)) 2
            ∧ (y : Int) - Int.fdiv ((newH : Int) - (oldH : Int)) 2 < (oldH : Int) then
          data.getD
            (((y : Int) - Int.fdiv ((newH : Int) - (oldH : Int)) 2).toNat * oldW
              + ((x : Int) - Int.fdiv ((newW : Int) - (oldW : Int)) 2).toNat)
            transparentPx
        else transparentPx) := by
  have hidx : y * newW + x < newW * newH := by
    calc y * newW + x < y * newW + newW := by omega
      _ = (y + 1) * newW := by ring
      _ ≤ newH * newW := Nat.mul_le_mul_right newW hy
      _ = newW * newH := Nat.mul_comm newH newW
  have hlen : y * newW + x < (resizeSurface oldW oldH newW newH data).length := by
    simp [resizeSurface]
    omega
  rw [List.getD_eq_getElem?_getD, List.getElem?_eq_getElem hlen, Option.getD_some]
  simp only [resizeSurface, List.getElem_map, List.getElem_range]
  have hmod : (y * newW + x) % newW = x := by
    rw [Nat.mul_comm y newW, Nat.mul_add_mod, Nat.mod_eq_of_lt hx]
  have hdiv : (y * newW + x) / newW = y := by
    rw [Nat.mul_comm y newW, Nat.mul_add_div (by omega), Nat.div_eq_of_lt hx]
    omega
  rw [hmod, hdiv]

theorem resizeSurface_roundtrip (W H W2 H2 : Nat) (data : Surface)
    (hW : W ≤ W2) (hH : H ≤ H2)
    (hWe : (W2 - W) % 2 = 0) (hHe : (H2 - H) % 2 = 0)
    (hlen : data.length = W * H) :
    resizeSurface W2 H2 W H (resizeSurface W H W2 H2 data) = data := by
  obtain ⟨m, rfl⟩ : ∃ m, W2 = W + 2 * m := ⟨(W2 - W) / 2, by omega⟩
  obtain ⟨n, rfl⟩ : ∃ n, H2 = H + 2 * n := ⟨(H2 - H) / 2, by omega⟩
  have hfd : ∀ a : Int, Int.fdiv a 2 = a / 2 := fun a => Int.fdiv_eq_ediv a (by omega)
  have hdW1 : Int.fdiv (((W + 2 * m : Nat) : Int) - (W : Int)) 2 = (m : Int) := by
    rw [hfd]; push_cast; omega
  have hdW2 : Int.fdiv ((W : Int) - ((W + 2 * m : Nat) : Int)) 2 = -(m : Int) := by
    rw [hfd]; push_cast; omega
  have hdH1 : Int.fdiv (((H + 2 * n : Nat) : Int) - (H : Int)) 2 = (n : Int) := by
    rw [hfd]; push_cast; omega
  have hdH2 : Int.fdiv ((H : Int) - ((H + 2 * n : Nat) : Int)) 2 = -(n : Int) := by
    rw [hfd]; push_cast; omega
  have hlenL : (resizeSurface (W + 2 * m) (H + 2 * n) W H
      (resizeSurface W H (W + 2 * m) (H + 2 * n) data)).length = W * H := by
    simp [resizeSurface]
  apply List.ext_getElem (by omega)
  intro i hi1 hi2
  have hiWH : i < W * H := hlen ▸ hi2
  have hWpos : 0 < W := by
    by_cases hw : W = 0
    · subst hw; simp at hiWH
    · omega
  have hHpos : 0 < H := by
    by_cases hh : H = 0
    · subst hh; simp at hiWH
    · omega
  obtain ⟨x, hxe⟩ : ∃ x, i % W = x := ⟨_, rfl⟩
  obtain ⟨y, hye⟩ : ∃ y, i / W = y := ⟨_, rfl⟩
  have hx : x < W := hxe ▸ Nat.mod_lt i hWpos
  have hy : y < H := by
    rw [← hye, Nat.div_lt_iff_lt_mul hWpos, Nat.mul_comm]
    exact hiWH
  have hieq : i = y * W + x := by
    rw [← hxe, ← hye, Nat.mul_comm]
    exact (Nat.div_add_mod i W).symm
  have hgetL : (resizeSurface (W + 2 * m) (H + 2 * n) W H
        (resizeSurface W H (W + 2 * m) (H + 2 * n) data))[i]
      = (resizeSurface (W + 2 * m) (H + 2 * n) W H
          (resizeSurface W H (W + 2 * m) (H + 2 * n) data)).getD
          (y * W + x) transparentPx := by
    rw [← hieq, List.getD_eq_getElem?_getD, List.getElem?_eq_getElem hi1, Option.getD_some]
  have hgetR : data[i] = data.getD (y * W + x) transparentPx := by
    rw [← hieq, List.getD_eq_getElem?_getD, List.getElem?_eq_getElem hi2, Option.getD_some]
  rw [hgetL, hgetR]
  rw [resizeSurface_getD (W + 2 * m) (H + 2 * n) W H _ x y hx hy]
  rw [hdW2, hdH2]
  have hcond : 0 < W + 2 * m ∧ 0 < H + 2 * n
      ∧ 0 ≤ ((x : Nat) : Int) - -(m : Int)
      ∧ ((x : Nat) : Int) - -(m : Int) < ((W + 2 * m : Nat) : Int)
      ∧ 0 ≤ ((y : Nat) : Int) - -(n : Int)
      ∧ ((y : Nat) : Int) - -(n : Int) < ((H + 2 * n : Nat) : Int) := by
    push_cast
    omega
  rw [if_pos hcond]
  have hsx : (((x : Nat) : Int) - -(m : Int)).toNat < W + 2 * m := by omega
  have hsy : (((y : Nat) : Int) - -(n : Int)).toNat < H + 2 * n := by omega
  rw [resizeSurface_getD W H (W + 2 * m) (H + 2 * n) data _ _ hsx hsy]
  rw [hdW1, hdH1]
  have hcond1 : 0 < W ∧ 0 < H
      ∧ 0 ≤ (((((x : Nat) : Int) - -(m : Int)).toNat : Nat) : Int) - (m : Int)
      ∧ (((((x : Nat) : Int) - -(m : Int)).toNat : Nat) : Int) - (m : Int) < (W : Int)
      ∧ 0 ≤ (((((y : Nat) : Int) - -(n : Int)).toNat : Nat) : Int) - (n : Int)
      ∧ (((((y : Nat) : Int) - -(n : Int)).toNat : Nat) : Int) - (n : Int) < (H : Int) := by
    omega
  rw [if_pos hcond1]
  congr 1
  have hxx : ((((((x : Nat) : Int) - -(m : Int)).toNat : Nat) : Int) - (m : Int)).toNat
      = x := by omega
  have hyy : ((((((y : Nat) : Int) - -(n : Int)).toNat : Nat) : Int) - (n : Int)).toNat
      = y := by omega
  rw [hxx, hyy]

def exResizeSt : LayersState :=
  { layers := [{ id := 1, name := "Background", opacity := 1, blendMode := "normal",
                 visible := true, locked := false, surface := [⟨255, 0, 0, 255⟩] }],
    activeLayerIndex := 0, nextLayerId := 2, width := 1, height := 1 }

/-- Claim C2 counterexample: for a 1x1 canvas holding one opaque red pixel,
resize(2,2) places the pixel at offset floor((2-1)/2) = 0, but resizing
back to (1,1) uses offset floor((1-2)/2) = -1, so the surviving pixel is
the mid-canvas entry at (1,1) — transparent.  The round trip with odd
dimension deltas shifts content by one pixel instead of reproducing it
byte-for-byte, refuting the claim as stated. -/
theorem resize_roundtrip_counterexample :
    (resizeLayers (resizeLayers exResizeSt 2 2) 1 1).layers.map (fun l => l.surface)
      ≠ exResizeSt.layers.map (fun l => l.surface)
    ∧ (resizeLayers (resizeLayers exResizeSt 2 2) 1 1).layers.map (fun l => l.surface)
      = [[transparentPx]] := by
  constructor
  · decide
  · decide

/-- Claim C2 (amended): for every layer stack and dimensions, resize leaves the
layer count, ordering and per-layer metadata unchanged and touches only
the surfaces; each resized surface places the old content at integer
offset floor((new-old)/2) per axis (the pixel at (x,y) comes from
(x-dx, y-dy) when that lies in the old bounds) and fills the remaining
area transparent; and the round trip resize(W2,H2) then resize(W,H) back
to the exact original dimensions reproduces the original state
byte-for-byte for W2 >= W, H2 >= H provided both dimension deltas are
even (odd deltas shift content by one pixel, see the counterexample). -/
theorem resizeLayers_spec (st : LayersState) (newW newH : Nat) :
    ((resizeLayers st newW newH).layers
        = st.layers.map (fun l =>
            { l with surface := resizeSurface st.width st.height newW newH l.surface })
      ∧ (resizeLayers st newW newH).activeLayerIndex = st.activeLayerIndex
      ∧ (resizeLayers st newW newH).width = newW
      ∧ (resizeLayers st newW newH).height = newH)
    ∧ (∀ (data : Surface) (x y : Nat), x < newW → y < newH →
        (resizeSurface st.width st.height newW newH data).getD (y * newW + x) transparentPx
          = (if 0 < st.width ∧ 0 < st.height
                ∧ 0 ≤ (x : Int) - Int.fdiv ((newW : Int) - (st.width : Int)) 2
                ∧ (x : Int) - Int.fdiv ((newW : Int) - (st.width : Int)) 2 < (st.width : Int)
                ∧ 0 ≤ (y : Int) - Int.fdiv ((newH : Int) - (st.height : Int)) 2
                ∧ (y : Int) - Int.fdiv ((newH : Int) - (st.height : Int)) 2 < (st.height : Int)
              then
                data.getD
                  (((y : Int) - Int.fdiv ((newH : Int) - (st.height : Int)) 2).toNat * st.width
                    + ((x : Int) - Int.fdiv ((newW : Int) - (st.width : Int)) 2).toNat)
                  transparentPx
              else transparentPx))
    ∧ (st.width ≤ newW → st.height ≤ newH →
        (newW - st.width) % 2 = 0 → (newH - st.height) % 2 = 0 →
        (∀ l ∈ st.layers, l.surface.length = st.width * st.height) →
        resizeLayers (resizeLayers st newW newH) st.width st.height = st) := by
  refine ⟨⟨rfl, rfl, rfl, rfl⟩, ?_, ?_⟩
  · intro data x y hx hy
    exact resizeSurface_getD st.width st.height newW newH data x y hx hy
  · intro hW hH hWe hHe hsurf
    cases st with
    | mk layers act nid w h =>
      simp only [resizeLayers, List.map_map]
      congr 1
      calc layers.map
            ((fun l => { l with surface := resizeSurface newW newH w h l.surface })
              ∘ (fun l => { l with surface := resizeSurface w h newW newH l.surface }))
          = layers.map id := by
            apply List.map_congr_left
            intro l hl
            simp only [Function.comp_apply, id_eq]
            rw [resizeSurface_roundtrip w h newW newH l.surface hW hH hWe hHe
              (hsurf l hl)]
        _ = layers := List.map_id layers

def exEvenSt : LayersState :=
  { layers := [{ id := 1, name := "Background", opacity := 1, blendMode := "normal",
                 visible := true, locked := false,
                 surface := [⟨255, 0, 0, 255⟩, ⟨0, 255, 0, 255⟩,
                             ⟨0, 0, 255, 255⟩, ⟨255, 255, 255, 255⟩] }],
    activeLayerIndex := 0, nextLayerId := 2, width := 2, height := 2 }

theorem resizeLayers_spec_witness :
    resizeLayers (resizeLayers exEvenSt 4 4) 2 2 = exEvenSt :=
  (resizeLayers_spec exEvenSt 4 4).2.2 (by decide) (by decide) (by decide) (by decide)
    (by decide)

/-! ## Undo/Redo manager (`UndoRedoManager` in the main controller)

`captureSnapshot` deep-copies every layer's pixel surface plus
name/opacity/visibility/blend-mode and the active index into a history
entry (the per-layer extract of `layer.renderTexture` is the pixel copy),
truncates any redo tail above the cursor, appends, and evicts the oldest
entry past the capacity.  `restoreSnapshot` clears the entire layer store
and rebuilds it layer-by-layer through `addLayer`, rendering the base
fill (opaque white for the background layer at index 0, otherwise
transparent) and then the snapshot canvas over it into the fresh texture,
finally setting the active index through
`setActiveLayer(min(activeLayerIndex, n - 1))`.

Rendering a straight-alpha pixel over a transparent base is the identity;
over the opaque white base it is modelled by `overWhitePx` (source-over
with byte arithmetic).  Snapshot canvases always have the manager's
current dimensions here, so the `sx/sy !== 1` rescale branch of the
source (which only arises across artboard resizes and is performed by the
external renderer) does not fire. -/

structure SnapLayer where
  name : String
  opacity : ℚ
  visible : Bool
  blendMode : String
  canvas : Surface
deriving DecidableEq, Repr

structure SnapshotData where
  activeLayerIndex : Int
  canvasW : Nat
  canvasH : Nat
  layers : List SnapLayer
deriving DecidableEq, Repr

structure HistoryEntry where
  timestamp : Nat
  description : String
  data : SnapshotData
deriving DecidableEq, Repr

structure SystemState where
  history : List HistoryEntry
  currentIndex : Int
  maxHistorySize : Nat
  isRestoring : Bool
  store : LayersState
deriving DecidableEq, Repr

/-- The per-layer record captured by `captureSnapshot`:
`{ name, opacity, visible, blendMode, canvas }`. -/
def layerView (l : Layer) : SnapLayer :=
  ⟨l.name, l.opacity, l.visible, l.blendMode, l.surface⟩

def mkSnapshotData (st : LayersState) : SnapshotData :=
  ⟨st.activeLayerIndex, 1024, 1024, st.layers.map layerView⟩

def captureSnapshot (s : SystemState) (timestamp : Nat) (description : String) :
    SystemState :=
  if s.isRestoring then s
  else
    let entry : HistoryEntry := ⟨timestamp, description, mkSnapshotData s.store⟩
    let hist1 := if s.currentIndex < (s.history.length : Int) - 1
                 then s.history.take (s.currentIndex + 1).toNat
                 else s.history
    let hist2 := hist1 ++ [entry]
    if s.maxHistorySize < hist2.length then
      { s with history := hist2.tail, currentIndex := (hist2.length : Int) - 1 - 1 }
    else
      { s with history := hist2, currentIndex := (hist2.length : Int) - 1 }

/-- Source-over compositing of a straight-alpha pixel onto the opaque
white base fill of the restored background layer. -/
def overWhitePx (p : Pixel) : Pixel :=
  ⟨(p.r * p.a + 255 * (255 - p.a)) / 255,
   (p.g * p.a + 255 * (255 - p.a)) / 255,
   (p.b * p.a + 255 * (255 - p.a)) / 255, 255⟩

/-- The pixel content of a rebuilt layer: the snapshot canvas rendered
over the base fill (`clear: true` fill, then the canvas sprite with
`clear: false`). -/
def rebuildLayerSurface (isBg : Bool) (canvas : Surface) : Surface :=
  if isBg then canvas.map overWhitePx else canvas

/-- Rendering into the just-added layer's texture: replace the surface of
the newest (last) layer. -/
def setLastSurface (st : LayersState) (surf : Surface) : LayersState :=
  match st.layers.getLast? with
  | none => st
  | some l => { st with layers := st.layers.dropLast ++ [{ l with surface := surf }] }

/-- The `arr.forEach((ld, idx) => ...)` rebuild loop of `restoreSnapshot`:
add a layer with the snapshot's metadata (white-filled when it is the
background layer), then render base fill and canvas into its texture. -/
def restoreLayersAux (st : LayersState) (idx : Nat) : List SnapLayer → LayersState
  | [] => st
  | ld :: rest =>
      let isBg := idx == 0 && ld.name == "Background"
      let st1 := addLayer st ld.name ld.opacity ld.visible ld.blendMode
        (if isBg then some 0xffffff else none)
      let st2 := setLastSurface st1 (rebuildLayerSurface isBg ld.canvas)
      restoreLayersAux st2 (idx + 1) rest

/-- Binary `Math.min` on integers. -/
def jsMin (a b : Int) : Int := if a ≤ b then a else b

/-- Effect of `restoreSnapshot` on the layer store: `clearAllLayers`, the
rebuild loop, then `setActiveLayer(Math.min(activeLayerIndex, n - 1))`. -/
def restoreSnapshotStore (st : LayersState) (snap : SnapshotData) : LayersState :=
  let st1 := restoreLayersAux (clearAllLayers st) 0 snap.layers
  (setActiveLayer st1 (jsMin snap.activeLayerIndex ((snap.layers.length : Int) - 1))).2

/-- Array read `this.history[i]` with the JavaScript out-of-range read yielding
`undefined` (`none`). -/
def histGet (h : List HistoryEntry) (i : Int) : Option HistoryEntry :=
  if i < 0 then none else h[i.toNat]?

/-- Model of `restoreSnapshot(snapshot)`: an `undefined` snapshot returns immediately;
otherwise the store is rebuilt and the `isRestoring` guard is reset by
the `finally` block. -/
def restoreSnapshot (s : SystemState) (entry : Option HistoryEntry) : SystemState :=
  match entry with
  | none => s
  | some e => { s with store := restoreSnapshotStore s.store e.data, isRestoring := false }

def canUndo (s : SystemState) : Bool := decide (0 < s.currentIndex)

def canRedo (s : SystemState) : Bool :=
  decide (s.currentIndex < (s.history.length : Int) - 1)

def undoStep (s : SystemState) : SystemState :=
  if canUndo s then
    let s1 := { s with currentIndex := s.currentIndex - 1 }
    restoreSnapshot s1 (histGet s1.history s1.currentIndex)
  else s

def redoStep (s : SystemState) : SystemState :=
  if canRedo s then
    let s1 := { s with currentIndex := s.currentIndex + 1 }
    restoreSnapshot s1 (histGet s1.history s1.currentIndex)
  else s

/-- The observable content of the layer store: per-layer
name/opacity/visibility/blend-mode/pixels in stack order, plus the active
index (layer ids and lock flags are neither captured nor restored). -/
def storeView (st : LayersState) : List SnapLayer × Int :=
  (st.layers.map layerView, st.activeLayerIndex)

def restoreViewLayersFrom (idx : Nat) : List SnapLayer → List SnapLayer
  | [] => []
  | ld :: rest =>
      { ld with canvas := rebuildLayerSurface (idx == 0 && ld.name == "Background") ld.canvas }
        :: restoreViewLayersFrom (idx + 1) rest

/-- The observable store produced by restoring a snapshot — a pure
function of the snapshot. -/
def restoreView (snap : SnapshotData) : List SnapLayer × Int :=
  let n : Int := snap.layers.length
  let t := jsMin snap.activeLayerIndex (n - 1)
  (restoreViewLayersFrom 0 snap.layers, if 0 ≤ t ∧ t < n then t else n - 1)

theorem setLast_addLayer (st : LayersState) (name : String) (op : ℚ) (vis : Bool)
    (bm : String) (fc : Option Nat) (surf : Surface) :
    setLastSurface (addLayer st name op vis bm fc) surf
      = { st with
          layers := st.layers ++
            [{ id := st.nextLayerId, name := name, opacity := op, blendMode := bm,
               visible := vis, locked := false, surface := surf }],
          activeLayerIndex := (st.layers.length : Int),
          nextLayerId := st.nextLayerId + 1 } := by
  simp [setLastSurface, addLayer, List.getLast?_concat, List.dropLast_concat]

theorem restoreLayersAux_view : ∀ (L : List SnapLayer) (st : LayersState) (idx : Nat),
    (restoreLayersAux st idx L).layers.map layerView
        = st.layers.map layerView ++ restoreViewLayersFrom idx L
    ∧ (restoreLayersAux st idx L).layers.length = st.layers.length + L.length
    ∧ (restoreLayersAux st idx L).activeLayerIndex
        = (if L.length = 0 then st.activeLayerIndex
           else (st.layers.length : Int) + (L.length : Int) - 1)
  | [], st, idx => by simp [restoreLayersAux, restoreViewLayersFrom]
  | ld :: rest, st, idx => by
    obtain ⟨ih1, ih2, ih3⟩ := restoreLayersAux_view rest
      (setLastSurface
        (addLayer st ld.name ld.opacity ld.visible ld.blendMode
          (if (idx == 0 && ld.name == "Background") then some 0xffffff else none))
        (rebuildLayerSurface (idx == 0 && ld.name == "Background") ld.canvas))
      (idx + 1)
    rw [setLast_addLayer] at ih1 ih2 ih3
    simp only [restoreLayersAux, setLast_addLayer]
    refine ⟨?_, ?_, ?_⟩
    · rw [ih1]
      simp [restoreViewLayersFrom, layerView]
    · rw [ih2]
      simp
      omega
    · rw [ih3]
      by_cases hrest : rest.length = 0
      · rw [if_pos hrest]
        rw [if_neg (by simp)]
        simp [hrest]
      · rw [if_neg hrest]
        rw [if_neg (by simp)]
        simp only [List.length_append, List.length_cons]
        push_cast
        simp
        omega

theorem storeView_restore (st : LayersState) (snap : SnapshotData) :
    storeView (restoreSnapshotStore st snap) = restoreView snap := by
  obtain ⟨h1, h2, h3⟩ := restoreLayersAux_view snap.layers (clearAllLayers st) 0
  have hclear1 : (clearAllLayers st).layers = [] := rfl
  rw [hclear1] at h1 h2
  simp only [List.map_nil, List.nil_append, List.length_nil] at h1 h2
  have hact1 : (restoreLayersAux (clearAllLayers st) 0 snap.layers).activeLayerIndex
      = (snap.layers.length : Int) - 1 := by
    rw [h3]
    split
    · rename_i hz
      simp [hz, clearAllLayers]
    · rw [hclear1]
      simp
  have hlen : ((restoreLayersAux (clearAllLayers st) 0 snap.layers).layers.length : Int)
      = (snap.layers.length : Int) := by rw [h2]; simp
  simp only [restoreSnapshotStore, setActiveLayer, storeView, restoreView]
  rw [hlen]
  by_cases hc : 0 ≤ jsMin snap.activeLayerIndex ((snap.layers.length : Int) - 1)
      ∧ jsMin snap.activeLayerIndex ((snap.layers.length : Int) - 1)
        < (snap.layers.length : Int)
  · rw [if_pos hc, if_pos hc]
    show ((restoreLayersAux (clearAllLayers st) 0 snap.layers).layers.map layerView,
        jsMin snap.activeLayerIndex ((snap.layers.length : Int) - 1))
      = (restoreViewLayersFrom 0 snap.layers,
        jsMin snap.activeLayerIndex ((snap.layers.length : Int) - 1))
    rw [h1]
  · rw [if_neg hc, if_neg hc]
    show ((restoreLayersAux (clearAllLayers st) 0 snap.layers).layers.map layerView,
        (restoreLayersAux (clearAllLayers st) 0 snap.layers).activeLayerIndex)
      = (restoreViewLayersFrom 0 snap.layers, (snap.layers.length : Int) - 1)
    rw [h1, hact1]

/-- Claim C1 (amended): for every history state in which canUndo holds
(with a valid cursor), calling undo() and then redo() brings the cursor
and the history back to their pre-undo values and rebuilds the store
deterministically from the pre-undo history entry: the rebuilt store's
observable content — per-layer pixel surfaces, layer order, name,
opacity, visibility, blend mode, and the active index clamped to the
rebuilt stack's bounds — equals that entry's restoration.  This is the
exact pre-undo state whenever the pre-undo store agreed with that
restoration (e.g. right after an undo or redo, or after a capture whose
background pixels are all fully opaque); it is not byte-identical in
general, because restoreSnapshot re-composites the index-0 "Background"
layer over an opaque white base fill, so non-opaque background pixels
return opaque white (see the counterexample). -/
theorem undo_redo_restores_state (s : SystemState) (e : HistoryEntry)
    (hcu : canUndo s = true)
    (hIdx : s.currentIndex < (s.history.length : Int))
    (hGet : histGet s.history s.currentIndex = some e) :
    (redoStep (undoStep s)).currentIndex = s.currentIndex
    ∧ (redoStep (undoStep s)).history = s.history
    ∧ (redoStep (undoStep s)).maxHistorySize = s.maxHistorySize
    ∧ storeView (redoStep (undoStep s)).store = restoreView e.data
    ∧ (redoStep (undoStep s)).isRestoring = false
    ∧ (storeView s.store = restoreView e.data →
        storeView (redoStep (undoStep s)).store = storeView s.store) := by
  have hi0 : 0 < s.currentIndex := by simpa [canUndo] using hcu
  obtain ⟨e1, hE1⟩ : ∃ e1, histGet s.history (s.currentIndex - 1) = some e1 := by
    unfold histGet
    rw [if_neg (by omega)]
    have hlt : (s.currentIndex - 1).toNat < s.history.length := by omega
    exact ⟨s.history[(s.currentIndex - 1).toNat], List.getElem?_eq_getElem hlt⟩
  have hundo : undoStep s
      = { s with currentIndex := s.currentIndex - 1,
                 store := restoreSnapshotStore s.store e1.data,
                 isRestoring := false } := by
    unfold undoStep
    rw [if_pos hcu]
    show restoreSnapshot
        { s with currentIndex := s.currentIndex - 1 }
        (histGet s.history (s.currentIndex - 1)) = _
    rw [hE1]
    rfl
  have hplus : s.currentIndex - 1 + 1 = s.currentIndex := by omega
  have hredo : redoStep (undoStep s)
      = { s with currentIndex := s.currentIndex,
                 store := restoreSnapshotStore (restoreSnapshotStore s.store e1.data) e.data,
                 isRestoring := false } := by
    rw [hundo]
    unfold redoStep
    rw [if_pos (by simp [canRedo]; omega)]
    show restoreSnapshot
        { s with currentIndex := s.currentIndex - 1 + 1,
                 store := restoreSnapshotStore s.store e1.data,
                 isRestoring := false }
        (histGet s.history (s.currentIndex - 1 + 1)) = _
    rw [hplus, hGet]
    rfl
  rw [hredo]
  refine ⟨rfl, rfl, rfl, ?_, rfl, ?_⟩
  · show storeView (restoreSnapshotStore (restoreSnapshotStore s.store e1.data) e.data)
        = restoreView e.data
    rw [storeView_restore]
  · intro hSync
    show storeView (restoreSnapshotStore (restoreSnapshotStore s.store e1.data) e.data)
        = storeView s.store
    rw [storeView_restore, hSync]

def exSnapA : SnapshotData :=
  ⟨0, 1024, 1024, [⟨"Background", 1, true, "normal", [⟨255, 255, 255, 255⟩]⟩]⟩

def exSnapB : SnapshotData :=
  ⟨0, 1024, 1024, [⟨"Background", 1, true, "normal", [⟨255, 0, 0, 255⟩]⟩]⟩

def exInitStore : LayersState :=
  { layers := [], activeLayerIndex := -1, nextLayerId := 1, width := 1, height := 1 }

def exUndoState : SystemState :=
  { history := [⟨0, "Initial state", exSnapA⟩, ⟨1, "Brush stroke", exSnapB⟩],
    currentIndex := 1, maxHistorySize := 50, isRestoring := false,
    store := restoreSnapshotStore exInitStore exSnapB }

theorem undo_redo_witness :
    (redoStep (undoStep exUndoState)).currentIndex = exUndoState.currentIndex
    ∧ (redoStep (undoStep exUndoState)).history = exUndoState.history
    ∧ (redoStep (undoStep exUndoState)).maxHistorySize = exUndoState.maxHistorySize
    ∧ storeView (redoStep (undoStep exUndoState)).store = restoreView exSnapB
    ∧ (redoStep (undoStep exUndoState)).isRestoring = false
    ∧ (storeView exUndoState.store = restoreView exSnapB →
        storeView (redoStep (undoStep exUndoState)).store = storeView exUndoState.store) :=
  undo_redo_restores_state exUndoState ⟨1, "Brush stroke", exSnapB⟩ rfl (by decide) rfl

/-- Layer store reachable by an eraser stroke on the default white
Background layer: its single pixel is erased to full transparency. -/
def exErasedStore : LayersState :=
  { layers := [{ id := 1, name := "Background", opacity := 1, blendMode := "normal",
                 visible := true, locked := false, surface := [transparentPx] }],
    activeLayerIndex := 0, nextLayerId := 2, width := 1, height := 1 }

/-- The manager state right after the 'Eraser stroke' capture of that
store, built by the model's own `captureSnapshot` on top of the initial
snapshot: canUndo holds here. -/
def exErasedCapture : SystemState :=
  captureSnapshot
    { history := [⟨0, "Initial state", exSnapA⟩], currentIndex := 0,
      maxHistorySize := 50, isRestoring := false, store := exErasedStore }
    1 "Eraser stroke"

/-- Claim C1 counterexample: after capturing a Background layer holding
an erased (fully transparent) pixel, canUndo holds, but undo() followed
by redo() does not restore the pre-undo state byte-identically: the
restore rebuilds the index-0 "Background" layer over an opaque white base
fill, so the pre-undo transparent pixel returns as opaque white.  The
claim as stated (byte-identical surfaces for every state with canUndo)
is therefore false at this reachable state. -/
theorem undo_redo_not_byte_identical_counterexample :
    canUndo exErasedCapture = true
    ∧ (redoStep (undoStep exErasedCapture)).currentIndex = exErasedCapture.currentIndex
    ∧ exErasedCapture.store.layers.map (fun l => l.surface) = [[transparentPx]]
    ∧ (redoStep (undoStep exErasedCapture)).store.layers.map (fun l => l.surface)
        = [[⟨255, 255, 255, 255⟩]]
    ∧ storeView (redoStep (undoStep exErasedCapture)).store
        ≠ storeView exErasedCapture.store := by
  refine ⟨by decide, by decide, by decide, by decide, by decide⟩

theorem captureSnapshot_eq (s : SystemState) (t : Nat) (d : String)
    (hR : s.isRestoring = false) :
    captureSnapshot s t d =
      (let entry : HistoryEntry := ⟨t, d, mkSnapshotData s.store⟩
       let hist1 := if s.currentIndex < (s.history.length : Int) - 1
                    then s.history.take (s.currentIndex + 1).toNat else s.history
       let hist2 := hist1 ++ [entry]
       if s.maxHistorySize < hist2.length then
         { s with history := hist2.tail, currentIndex := (hist2.length : Int) - 1 - 1 }
       else { s with history := hist2, currentIndex := (hist2.length : Int) - 1 }) := by
  unfold captureSnapshot
  rw [if_neg (by simp [hR])]

theorem undoStep_history (s : SystemState) : (undoStep s).history = s.history := by
  unfold undoStep
  split
  · show (restoreSnapshot { s with currentIndex := s.currentIndex - 1 }
        (histGet s.history (s.currentIndex - 1))).history = s.history
    unfold restoreSnapshot
    cases histGet s.history (s.currentIndex - 1) <;> rfl
  · rfl

theorem redoStep_history (s : SystemState) : (redoStep s).history = s.history := by
  unfold redoStep
  split
  · show (restoreSnapshot { s with currentIndex := s.currentIndex + 1 }
        (histGet s.history (s.currentIndex + 1))).history = s.history
    unfold restoreSnapshot
    cases histGet s.history (s.currentIndex + 1) <;> rfl
  · rfl

/-- Claim C4: capture (when no restoration is in progress) first truncates any
redo tail above the cursor, then appends the new entry — always the last
element of the resulting history — then evicts the oldest entry if the
configured capacity is exceeded; consequently the history length never
exceeds the capacity, the cursor indexes a valid entry (the newest),
canRedo is false immediately after any capture, canUndo agrees with
"more than one entry" even after an eviction, and undo/redo themselves
never change the history, so the capacity bound is preserved by every
capture/undo/redo sequence. -/
theorem captureSnapshot_invariants (s : SystemState) (t : Nat) (d : String)
    (hR : s.isRestoring = false)
    (hCap : s.history.length ≤ s.maxHistorySize)
    (hMax : 1 ≤ s.maxHistorySize) :
    (captureSnapshot s t d).history.length ≤ s.maxHistorySize
    ∧ canRedo (captureSnapshot s t d) = false
    ∧ (captureSnapshot s t d).currentIndex
        = ((captureSnapshot s t d).history.length : Int) - 1
    ∧ 0 ≤ (captureSnapshot s t d).currentIndex
    ∧ canUndo (captureSnapshot s t d)
        = decide (1 < (captureSnapshot s t d).history.length)
    ∧ (captureSnapshot s t d).history.getLast? = some ⟨t, d, mkSnapshotData s.store⟩
    ∧ (undoStep s).history = s.history
    ∧ (redoStep s).history = s.history := by
  rw [captureSnapshot_eq s t d hR]
  simp only
  set hist1 := if s.currentIndex < (s.history.length : Int) - 1
               then s.history.take (s.currentIndex + 1).toNat else s.history with hh1
  have hL1 : hist1.length ≤ s.history.length := by
    rw [hh1]
    split
    · rw [List.length_take]
      omega
    · exact le_rfl
  by_cases hev : s.maxHistorySize
      < (hist1 ++ [(⟨t, d, mkSnapshotData s.store⟩ : HistoryEntry)]).length
  · rw [if_pos hev]
    simp only [List.length_append, List.length_cons, List.length_nil] at hev
    have hne : hist1 ≠ [] := by
      intro hnil
      rw [hnil] at hev
      simp at hev
      omega
    refine ⟨?_, ?_, ?_, ?_, ?_, ?_, undoStep_history s, redoStep_history s⟩
    · simp only [List.length_tail, List.length_append, List.length_cons, List.length_nil]
      omega
    · simp only [canRedo, decide_eq_false_iff_not, not_lt, List.length_tail,
        List.length_append, List.length_cons, List.length_nil]
      push_cast
      omega
    · simp only [List.length_tail, List.length_append, List.length_cons, List.length_nil]
      push_cast
      omega
    · simp only [List.length_append, List.length_cons, List.length_nil]
      have h1 : 1 ≤ hist1.length := by omega
      push_cast
      omega
    · simp only [canUndo, List.length_tail, List.length_append, List.length_cons,
        List.length_nil]
      rw [decide_eq_decide]
      have h1 : 1 ≤ hist1.length := by omega
      constructor
      · intro h
        omega
      · intro h
        push_cast
        omega
    · rw [List.tail_append_of_ne_nil hne]
      exact List.getLast?_concat _
  · rw [if_neg hev]
    simp only [List.length_append, List.length_cons, List.length_nil] at hev
    refine ⟨?_, ?_, ?_, ?_, ?_, ?_, undoStep_history s, redoStep_history s⟩
    · simp only [List.length_append, List.length_cons, List.length_nil]
      omega
    · simp only [canRedo, decide_eq_false_iff_not, not_lt]
      exact le_rfl
    · rfl
    · simp only [List.length_append, List.length_cons, List.length_nil]
      push_cast
      omega
    · simp only [canUndo, List.length_append, List.length_cons, List.length_nil]
      rw [decide_eq_decide]
      constructor
      · intro h
        push_cast at h
        omega
      · intro h
        push_cast
        omega
    · exact List.getLast?_concat _

theorem captureSnapshot_invariants_witness :
    (captureSnapshot exUndoState 2 "Flood fill").history.length
        ≤ exUndoState.maxHistorySize
    ∧ canRedo (captureSnapshot exUndoState 2 "Flood fill") = false :=
  ⟨(captureSnapshot_invariants exUndoState 2 "Flood fill" rfl (by decide) (by decide)).1,
   (captureSnapshot_invariants exUndoState 2 "Flood fill" rfl (by decide) (by decide)).2.1⟩

/-! ## Selection & extraction state machine (editor module)

The states and transitions claims C3 and C5 are about: the current tool,
the selection rectangle/polygon, the extracted-content sprite
(`selectionSprite`), the lasso-in-progress state, and the pixel effects
on the active layer.  The pixel effects performed through the external
renderer are recorded as an ordered list of render operations
(`LayerOp`): committing the extracted sprite back (`clearSelection`'s
render of `commitSprite`), and the erase-blend of the source region
during extraction.  The extracted buffer's content is identified by what
was copied (rectangle crop or polygon-masked copy of the active layer's
region). -/

structure Selection where
  x : ℚ
  y : ℚ
  width : ℚ
  height : ℚ
  isLasso : Bool
  polygon : List (ℚ × ℚ)
deriving DecidableEq, Repr

inductive BufferContent where
  | rectCrop (x y w h : ℚ)
  | polyMask (x y w h : ℚ) (polygon : List (ℚ × ℚ))
deriving DecidableEq, Repr

inductive Placement where
  | topLeft (x y : ℚ)
  | centered (cx cy rotation : ℚ)
deriving DecidableEq, Repr

inductive LayerOp where
  | commitSprite (buf : BufferContent) (w h : ℚ) (place : Placement)
  | eraseRect (x y w h : ℚ)
  | erasePoly (polygon : List (ℚ × ℚ))
deriving DecidableEq, Repr

def LayerOp.isCommit : LayerOp → Bool
  | .commitSprite _ _ _ _ => true
  | _ => false

structure EditorState where
  tool : String
  selection : Option Selection
  selectionSprite : Option BufferContent
  selectionRotation : ℚ
  selecting : Bool
  lassoSelecting : Bool
  lassoPoints : List (ℚ × ℚ)
  draggingSelection : Bool
  scalingSelection : Bool
  rotatingSelection : Bool
  activeLayerOps : List LayerOp
deriving DecidableEq, Repr

/-- The placement `clearSelection` uses when committing: center-anchored
with the current rotation when rotated, plain top-left position
otherwise (the transformation matrix's center is the selection
rectangle's center). -/
def commitPlacement (sel : Selection) (rotation : ℚ) : Placement :=
  if rotation ≠ 0 then
    Placement.centered (sel.x + sel.width / 2) (sel.y + sel.height / 2) rotation
  else
    Placement.topLeft sel.x sel.y

/-- Model of `clearSelection()`: when an extracted sprite and a selection exist,
render the sprite back onto the active layer at its current transformed
position/size/rotation and dispose it; then reset all selection state. -/
def clearSelection (s : EditorState) : EditorState :=
  let s1 :=
    match s.selectionSprite, s.selection with
    | some buf, some sel =>
        { s with
          activeLayerOps := s.activeLayerOps ++
            [LayerOp.commitSprite buf sel.width sel.height
              (commitPlacement sel s.selectionRotation)],
          selectionSprite := none }
    | _, _ => s
  { s1 with
    selection := none,
    lassoSelecting := false,
    lassoPoints := [],
    draggingSelection := false,
    scalingSelection := false,
    rotatingSelection := false,
    selectionRotation := 0 }

/-- Model of `extractSelectionContent()`: no-op unless a selection exists and no
sprite has been extracted yet; polygon selections are copied through a
polygon mask and the polygon interior erased from the source layer,
rectangle selections are cropped and the rectangle erased. -/
def extractSelectionContent (s : EditorState) : EditorState :=
  match s.selection, s.selectionSprite with
  | some sel, none =>
      if sel.isLasso ∧ 3 ≤ sel.polygon.length then
        { s with
          selectionSprite :=
            some (BufferContent.polyMask sel.x sel.y sel.width sel.height sel.polygon),
          activeLayerOps := s.activeLayerOps ++ [LayerOp.erasePoly sel.polygon] }
      else
        { s with
          selectionSprite :=
            some (BufferContent.rectCrop sel.x sel.y sel.width sel.height),
          activeLayerOps := s.activeLayerOps ++
            [LayerOp.eraseRect sel.x sel.y sel.width sel.height] }
  | _, _ => s

/-- The marquee branch of `handleToolInteraction` at pointer-down: reset
all selection state, destroy any extracted sprite (its texture is
destroyed without being rendered back), and begin a zero-size rectangle
at the pointer. -/
def marqueeStartBranch (s : EditorState) (px py : ℚ) : EditorState :=
  { s with
    selecting := true,
    selection := some ⟨px, py, 0, 0, false, []⟩,
    selectionSprite := none,
    draggingSelection := false,
    scalingSelection := false,
    rotatingSelection := false,
    selectionRotation := 0 }

/-- The lasso branch of `handleToolInteraction` at pointer-down: begin
the polyline, reset any previous selection and destroy any extracted
sprite (again without rendering it back). -/
def lassoStartBranch (s : EditorState) (px py : ℚ) : EditorState :=
  { s with
    lassoSelecting := true,
    lassoPoints := [(px, py)],
    selection := none,
    selectionSprite := none }

/-- Model of `setTool(name)` restricted to the fields of this model: record the
tool; entering the move tool with an existing selection extracts the
content immediately unless a sprite already exists. -/
def setTool (s : EditorState) (name : String) : EditorState :=
  let s1 := { s with tool := name }
  if name = "move" ∧ s1.selection.isSome then
    match s1.selectionSprite with
    | none => extractSelectionContent s1
    | some _ => s1
  else s1

/-- Model of `setSelection(rect)` (programmatic selection, e.g. after an image
upload): validate the rectangle, clear any existing selection first
(committing an extracted buffer through `clearSelection`), set the new
rectangle, and in the move tool extract immediately unless a sprite
already exists. -/
def setSelection (s : EditorState) (x y w h : ℚ) : Bool × EditorState :=
  if w ≤ 0 ∨ h ≤ 0 then (false, s)
  else
    let s1 := clearSelection s
    let s2 := { s1 with
                selection := some ⟨x, y, w, h, false, []⟩,
                draggingSelection := false,
                scalingSelection := false,
                rotatingSelection := false,
                selectionRotation := 0 }
    if s2.tool = "move" then
      match s2.selectionSprite with
      | none => (true, extractSelectionContent s2)
      | some _ => (true, s2)
    else (true, s2)

/-- Model of `finalizeLasso()`: with fewer than 3 points (or not lasso-selecting)
just abort; otherwise turn the polyline into a polygon selection with its
bounding box and extract the content unless a sprite already exists. -/
def finalizeLasso (s : EditorState) : EditorState :=
  if ¬s.lassoSelecting ∨ s.lassoPoints.length < 3 then
    { s with lassoSelecting := false }
  else
    match s.lassoPoints with
    | [] => { s with lassoSelecting := false }
    | p :: rest =>
        let minX := rest.foldl (fun acc q => qmin acc q.1) p.1
        let minY := rest.foldl (fun acc q => qmin acc q.2) p.2
        let maxX := rest.foldl (fun acc q => qmax acc q.1) p.1
        let maxY := rest.foldl (fun acc q => qmax acc q.2) p.2
        let w := qmax 1 ((round (maxX - minX) : ℤ) : ℚ)
        let h := qmax 1 ((round (maxY - minY) : ℤ) : ℚ)
        let s1 := { s with
                    selection := some ⟨minX, minY, w, h, true, s.lassoPoints⟩,
                    lassoSelecting := false,
                    selectionRotation := 0 }
        match s1.selectionSprite with
        | none => extractSelectionContent s1
        | some _ => s1

theorem clearSelection_eq (s : EditorState) (buf : BufferContent) (sel : Selection)
    (hbuf : s.selectionSprite = some buf) (hsel : s.selection = some sel) :
    clearSelection s
      = { s with
          activeLayerOps := s.activeLayerOps ++
            [LayerOp.commitSprite buf sel.width sel.height
              (commitPlacement sel s.selectionRotation)],
          selectionSprite := none,
          selection := none,
          lassoSelecting := false,
          lassoPoints := [],
          draggingSelection := false,
          scalingSelection := false,
          rotatingSelection := false,
          selectionRotation := 0 } := by
  unfold clearSelection
  rw [hbuf, hsel]

/-- Claim C5: for every selection lifetime, content extraction runs at most
once: once an extracted buffer exists, a further call to
`extractSelectionContent` — directly, on switching to the move tool, or
at lasso finalization — is a no-op that neither copies pixels nor erases
the source layer again (no render operation is appended and the sprite is
untouched). -/
theorem extraction_at_most_once (s : EditorState) (buf : BufferContent)
    (hbuf : s.selectionSprite = some buf) :
    extractSelectionContent s = s
    ∧ setTool s "move" = { s with tool := "move" }
    ∧ (finalizeLasso s).activeLayerOps = s.activeLayerOps
    ∧ (finalizeLasso s).selectionSprite = s.selectionSprite := by
  have hext : ∀ s' : EditorState, s'.selectionSprite = some buf →
      extractSelectionContent s' = s' := by
    intro s' h
    unfold extractSelectionContent
    rw [h]
    cases s'.selection <;> rfl
  refine ⟨hext s hbuf, ?_, ?_, ?_⟩
  · unfold setTool
    simp only
    split
    · have h1 : ({ s with tool := "move" } : EditorState).selectionSprite = some buf := hbuf
      rw [h1]
    · rfl
  · simp only [finalizeLasso]
    split
    · rfl
    · split
      · rfl
      · split
        · rename_i heq2
          have hnone : s.selectionSprite = none := heq2
          rw [hbuf] at hnone
          cases hnone
        · rfl
  · simp only [finalizeLasso]
    split
    · rfl
    · split
      · rfl
      · split
        · rename_i heq2
          have hnone : s.selectionSprite = none := heq2
          rw [hbuf] at hnone
          cases hnone
        · rfl

def exSel : Selection := ⟨10, 10, 40, 40, false, []⟩

def exBuf : BufferContent := BufferContent.rectCrop 10 10 40 40

def exEditor : EditorState :=
  { tool := "move", selection := some exSel, selectionSprite := some exBuf,
    selectionRotation := 0, selecting := false, lassoSelecting := false,
    lassoPoints := [], draggingSelection := false, scalingSelection := false,
    rotatingSelection := false, activeLayerOps := [LayerOp.eraseRect 10 10 40 40] }

theorem extraction_at_most_once_witness :
    extractSelectionContent exEditor = exEditor
    ∧ setTool exEditor "move" = { exEditor with tool := "move" }
    ∧ (finalizeLasso exEditor).activeLayerOps = exEditor.activeLayerOps
    ∧ (finalizeLasso exEditor).selectionSprite = exEditor.selectionSprite :=
  extraction_at_most_once exEditor exBuf rfl

def exEditorMarquee : EditorState :=
  { tool := "marquee", selection := some ⟨10, 10, 40, 40, false, []⟩,
    selectionSprite := some (BufferContent.rectCrop 10 10 40 40),
    selectionRotation := 0, selecting := false, lassoSelecting := false,
    lassoPoints := [], draggingSelection := false, scalingSelection := false,
    rotatingSelection := false, activeLayerOps := [LayerOp.eraseRect 10 10 40 40] }

/-- Claim C3 counterexample: with an extracted buffer live (its source region
already erased from the layer), starting a new marquee selection — a
"replaced by starting a new selection" path — destroys the sprite
without appending any commit render: the operation log is unchanged and
contains no commit, so the extracted pixels are discarded, not
reinserted.  The lasso start branch behaves the same way. -/
theorem marquee_discards_extracted_counterexample :
    exEditorMarquee.selectionSprite = some (BufferContent.rectCrop 10 10 40 40)
    ∧ (marqueeStartBranch exEditorMarquee 5 5).selectionSprite = none
    ∧ (marqueeStartBranch exEditorMarquee 5 5).activeLayerOps
        = exEditorMarquee.activeLayerOps
    ∧ (marqueeStartBranch exEditorMarquee 5 5).activeLayerOps.countP LayerOp.isCommit = 0
    ∧ (lassoStartBranch exEditorMarquee 5 5).selectionSprite = none
    ∧ (lassoStartBranch exEditorMarquee 5 5).activeLayerOps
        = exEditorMarquee.activeLayerOps :=
  ⟨rfl, rfl, rfl, rfl, rfl, rfl⟩

/-- Claim C3 (amended): an extracted buffer is reinserted into the active layer
exactly once when the selection is cleared through `clearSelection`
(explicit clear, move-tool click outside the selection) or replaced
through the programmatic `setSelection` (which clears first): exactly one
commit of the buffer at the selection's current width/height and
position/rotation is rendered, and the buffer is disposed.  However,
starting a new marquee or lasso selection with the pointer destroys the
extracted buffer without committing it back (see the counterexample), so
the "no path discards" part of the claim fails only on those two
pointer-driven replacement paths. -/
theorem extracted_commit_exactly_once (s : EditorState) (buf : BufferContent)
    (sel : Selection) (hbuf : s.selectionSprite = some buf)
    (hsel : s.selection = some sel) :
    (clearSelection s).activeLayerOps
        = s.activeLayerOps ++
          [LayerOp.commitSprite buf sel.width sel.height
            (commitPlacement sel s.selectionRotation)]
    ∧ (clearSelection s).selectionSprite = none
    ∧ (clearSelection s).selection = none
    ∧ (∀ x y w h : ℚ, 0 < w → 0 < h →
        (setSelection s x y w h).1 = true
        ∧ (setSelection s x y w h).2.activeLayerOps.countP LayerOp.isCommit
            = s.activeLayerOps.countP LayerOp.isCommit + 1)
    ∧ (∀ px py : ℚ,
        (marqueeStartBranch s px py).activeLayerOps = s.activeLayerOps
        ∧ (marqueeStartBranch s px py).selectionSprite = none
        ∧ (lassoStartBranch s px py).activeLayerOps = s.activeLayerOps
        ∧ (lassoStartBranch s px py).selectionSprite = none) := by
  have hclear := clearSelection_eq s buf sel hbuf hsel
  refine ⟨by rw [hclear], by rw [hclear], by rw [hclear], ?_,
    fun px py => ⟨rfl, rfl, rfl, rfl⟩⟩
  intro x y w h hw hh
  unfold setSelection
  rw [if_neg (by push_neg; exact ⟨by linarith, by linarith⟩)]
  simp only
  rw [hclear]
  split
  · constructor
    · rfl
    · simp [extractSelectionContent, List.countP_append, LayerOp.isCommit]
  · constructor
    · rfl
    · simp [List.countP_append, LayerOp.isCommit]

theorem extracted_commit_exactly_once_witness :
    (clearSelection exEditorMarquee).activeLayerOps
        = exEditorMarquee.activeLayerOps ++
          [LayerOp.commitSprite (BufferContent.rectCrop 10 10 40 40) 40 40
            (commitPlacement ⟨10, 10, 40, 40, false, []⟩ 0)]
    ∧ (clearSelection exEditorMarquee).selectionSprite = none
    ∧ (setSelection exEditorMarquee 1 2 30 30).1 = true :=
  ⟨(extracted_commit_exactly_once exEditorMarquee _ _ rfl rfl).1,
   (extracted_commit_exactly_once exEditorMarquee _ _ rfl rfl).2.1,
   ((extracted_commit_exactly_once exEditorMarquee _ _ rfl rfl).2.2.2.1 1 2 30 30
     (by decide) (by decide)).1⟩
